import Mathlib

/-!
Shallow embedding of the `Monitor` drift-detection class from
`Machine-Learning-in-Production/04-Production/01-Monitoring.py`.

Modelling choices:
* A pandas dataframe is a list of named columns; a cell is `Option ℚ`
  (`none` models a null/NaN entry; categorical labels are coded as
  rationals, which is injective and order-compatible with the
  `sort_index` / outer-join pipeline of `handle_categorical`).
* The p-value computations of `scipy.stats.ks_2samp` and
  `scipy.stats.chi2_contingency` are transcendental library calls; they
  are abstracted as oracle fields of the `Monitor` structure, while the
  error behaviour of the two routines (`ValueError` on empty data and
  on a zero row of expected frequencies) and all orchestration logic
  are embedded explicitly.
* Python exceptions are modelled with `RunError`; a run returns the
  trace of per-feature test results produced before the first uncaught
  exception, paired with that exception when one occurred.  The
  `on_drift` notifications (prints) are the drift-flagged results of
  that trace, in emission order.
* Real arithmetic is modelled exactly over `ℚ`.
-/

namespace Monitoring

/-- A column of a dataframe: the cells in row order; `none` is a null. -/
abbrev Col := List (Option ℚ)

/-- A pandas dataframe: named columns in order. -/
structure PDF where
  cols : List (String × Col)
deriving DecidableEq

/-- The column-name index `pdf.columns`. -/
def PDF.columns (p : PDF) : List String := p.cols.map Prod.fst

/-- Column selection `pdf[c]`; `none` models the `KeyError` case. -/
def PDF.get (p : PDF) (c : String) : Option Col := p.cols.lookup c

/-- Python exceptions that can escape the monitor code. -/
inductive RunError where
  | assertionError
  | keyError (feature : String)
  | zeroDivisionError
  | valueError
deriving DecidableEq

/-- Which family a test belongs to. -/
inductive TestKind where
  | numeric
  | categorical
deriving DecidableEq

/-- Outcome of one per-feature statistical test, as observable from the
branch taken by `handle_numeric` / `handle_categorical`. -/
structure TestResult where
  feature : String
  kind : TestKind
  p_value : ℚ
  corrected_alpha : ℚ
  is_drift : Bool
deriving DecidableEq

/-- The `Monitor` object state after `__init__`, together with the two
abstracted scipy p-value oracles. -/
structure Monitor where
  pdf1 : PDF
  pdf2 : PDF
  categorical_columns : List String
  continuous_columns : List String
  alpha : ℚ
  ks_2samp : Col → Col → ℚ
  chi2_contingency : List ℕ → List ℕ → ℚ

/-- `Monitor.__init__`: `assert (pdf1.columns == pdf2.columns).all()`
(message "Columns do not match") and field assignment. -/
def mkMonitor (pdf1 pdf2 : PDF) (cat_cols num_cols : List String) (alpha : ℚ)
    (ks : Col → Col → ℚ) (chi : List ℕ → List ℕ → ℚ) : Except RunError Monitor :=
  if pdf1.columns = pdf2.columns then
    .ok ⟨pdf1, pdf2, cat_cols, num_cols, alpha, ks, chi⟩
  else
    .error .assertionError

/-- The non-null values of a column, in row order.  Pandas
`value_counts()` uses its default `dropna=True`, so this is exactly
what gets tabulated. -/
def dropna (vs : Col) : List ℚ := vs.filterMap id

/-- `Series.value_counts().sort_index()`: the distinct non-null values
in increasing order, each with its number of occurrences. -/
def value_counts (vs : Col) : List (ℚ × ℕ) :=
  (((dropna vs).dedup).insertionSort (· ≤ ·)).map (fun v => (v, (dropna vs).count v))

/-- Index of `pdf_count1.join(pdf_count2, how="outer")`: a sorted list
of the distinct non-null values occurring in either window. -/
def joinKeys (vs1 vs2 : Col) : List ℚ :=
  ((dropna vs1 ++ dropna vs2).dedup).insertionSort (· ≤ ·)

/-- One row of `pdf_counts` after `fillna(0)`: for every key of the
joined index, the count from this window, zero when absent. -/
def tableRow (vs : Col) (keys : List ℚ) : List ℕ :=
  keys.map (fun v => ((value_counts vs).lookup v).getD 0)

/-- `obs = np.array([pdf_counts["pdf1"], pdf_counts["pdf2"]])`: the
2×K contingency table, one row per window. -/
def contingencyTable (vs1 vs2 : Col) : List ℕ × List ℕ :=
  (tableRow vs1 (joinKeys vs1 vs2), tableRow vs2 (joinKeys vs1 vs2))

/-- Evaluation of one numeric feature inside the `handle_numeric` loop:
`stats.ks_2samp(self.pdf1[num], self.pdf2[num], mode="asymp")` followed
by the drift check `ks_pval <= corrected_alpha`.  A missing column is a
`KeyError`; scipy raises `ValueError` on empty data. -/
def evalNumeric (m : Monitor) (corrected_alpha : ℚ) (num : String) :
    Except RunError TestResult :=
  match m.pdf1.get num, m.pdf2.get num with
  | some c1, some c2 =>
    if c1.length = 0 ∨ c2.length = 0 then .error .valueError
    else
      .ok ⟨num, .numeric, m.ks_2samp c1 c2, corrected_alpha,
        decide (m.ks_2samp c1 c2 ≤ corrected_alpha)⟩
  | none, _ => .error (.keyError num)
  | some _, none => .error (.keyError num)

/-- Evaluation of one categorical feature inside the `handle_categorical`
loop: build the contingency table, run `stats.chi2_contingency(obs)` and
check `p < corrected_alpha`.  A missing column is a `KeyError`; scipy
raises `ValueError` when a row of expected frequencies is zero, which
happens exactly when a window has zero tabulated observations. -/
def evalCategorical (m : Monitor) (corrected_alpha : ℚ) (feature : String) :
    Except RunError TestResult :=
  match m.pdf1.get feature, m.pdf2.get feature with
  | some c1, some c2 =>
    if (contingencyTable c1 c2).1.sum = 0 ∨ (contingencyTable c1 c2).2.sum = 0 then
      .error .valueError
    else
      .ok ⟨feature, .categorical,
        m.chi2_contingency (contingencyTable c1 c2).1 (contingencyTable c1 c2).2,
        corrected_alpha,
        decide (m.chi2_contingency (contingencyTable c1 c2).1 (contingencyTable c1 c2).2
          < corrected_alpha)⟩
  | none, _ => .error (.keyError feature)
  | some _, none => .error (.keyError feature)

/-- Sequential evaluation of one family of features.  An uncaught
exception aborts the loop: the results produced so far are kept (their
`on_drift` prints already happened), the remaining features are never
evaluated. -/
def runFamily (ev : String → Except RunError TestResult) :
    List String → List TestResult × Option RunError
  | [] => ([], none)
  | f :: fs =>
    match ev f with
    | .ok r => (r :: (runFamily ev fs).1, (runFamily ev fs).2)
    | .error e => ([], some e)

/-- `Monitor.handle_numeric`: `corrected_alpha = self.alpha /
len(self.continuous_columns)` (a `ZeroDivisionError` for an empty
family, before any feature is looked at), then the loop over
`self.continuous_columns`. -/
def Monitor.handle_numeric (m : Monitor) : List TestResult × Option RunError :=
  if m.continuous_columns.length = 0 then ([], some .zeroDivisionError)
  else
    runFamily (evalNumeric m (m.alpha / (m.continuous_columns.length : ℚ)))
      m.continuous_columns

/-- `Monitor.handle_categorical`: `corrected_alpha = self.alpha /
len(self.categorical_columns)` (a `ZeroDivisionError` for an empty
family), then the loop over `self.categorical_columns`. -/
def Monitor.handle_categorical (m : Monitor) : List TestResult × Option RunError :=
  if m.categorical_columns.length = 0 then ([], some .zeroDivisionError)
  else
    runFamily (evalCategorical m (m.alpha / (m.categorical_columns.length : ℚ)))
      m.categorical_columns

/-- `Monitor.run`: `self.handle_numeric()` then
`self.handle_categorical()`; an exception in the numeric phase
propagates and the categorical phase never starts. -/
def Monitor.run (m : Monitor) : List TestResult × Option RunError :=
  match (m.handle_numeric).2 with
  | some e => ((m.handle_numeric).1, some e)
  | none =>
    ((m.handle_numeric).1 ++ (m.handle_categorical).1, (m.handle_categorical).2)

/-- The ordered sequence of `on_drift` notifications emitted by a run:
exactly the drift-flagged results of the trace, in emission order. -/
def Monitor.driftEvents (m : Monitor) : List TestResult :=
  (m.run).1.filter (fun r => r.is_drift)

/-- Claim-side characterisation of the numeric drift verdict for one
feature (the Kolmogorov-Smirnov p-value against the Bonferroni-corrected
threshold, non-strict comparison). -/
def numericVerdict (m : Monitor) (num : String) : Bool :=
  match m.pdf1.get num, m.pdf2.get num with
  | some c1, some c2 =>
    decide (m.ks_2samp c1 c2 ≤ m.alpha / (m.continuous_columns.length : ℚ))
  | _, _ => false

/-- Claim-side characterisation of the categorical drift verdict for one
feature (the chi-squared p-value against the Bonferroni-corrected
threshold, strict comparison). -/
def categoricalVerdict (m : Monitor) (feature : String) : Bool :=
  match m.pdf1.get feature, m.pdf2.get feature with
  | some c1, some c2 =>
    decide (m.chi2_contingency (contingencyTable c1 c2).1 (contingencyTable c1 c2).2
      < m.alpha / (m.categorical_columns.length : ℚ))
  | _, _ => false

/-- The literal `1e-100` of `generate_percent_change`, as an exact
rational. -/
def epsGuard : ℚ := 1 / 10 ^ 100

/-- One cell of `generate_percent_change`:
`100 * abs((summary1_pdf - summary2_pdf) / (summary1_pdf + 1e-100))`. -/
def percent_change_cell (a b : ℚ) : ℚ := 100 * |(a - b) / (a + epsGuard)|

/-- `Monitor.generate_percent_change`: the descriptive statistics of
`DataFrame.describe()` (count, mean, std, min, quartiles, max) are an
external library call, abstracted as the `describe` argument; each cell
compares the per-window statistics through `percent_change_cell`. -/
def generate_percent_change (describe : Col → List ℚ) (m : Monitor) :
    List (String × List ℚ) :=
  m.continuous_columns.map (fun f =>
    (f, List.zipWith percent_change_cell
          (describe ((m.pdf1.get f).getD []))
          (describe ((m.pdf2.get f).getD []))))

/-- Data adequacy of one numeric feature: both windows have the column
and it is a nonempty array (what `ks_2samp` requires not to raise). -/
def numFeatureOk (m : Monitor) (f : String) : Bool :=
  match m.pdf1.get f, m.pdf2.get f with
  | some c1, some c2 => c1.length != 0 && c2.length != 0
  | _, _ => false

/-- Data adequacy of one categorical feature: both windows have the
column and both rows of the contingency table have a nonzero sum (what
`chi2_contingency` requires not to raise). -/
def catFeatureOk (m : Monitor) (f : String) : Bool :=
  match m.pdf1.get f, m.pdf2.get f with
  | some c1, some c2 =>
    (contingencyTable c1 c2).1.sum != 0 && (contingencyTable c1 c2).2.sum != 0
  | _, _ => false

/-- Constant p-value oracle used by concrete instances. -/
def ksHalf : Col → Col → ℚ := fun _ _ => 1 / 2

/-- Constant p-value oracle used by concrete instances. -/
def chiHalf : List ℕ → List ℕ → ℚ := fun _ _ => 1 / 2

/-- Constant p-value oracle that always reports a tiny p-value. -/
def ksZero : Col → Col → ℚ := fun _ _ => 0

/-- Constant p-value oracle that always reports a tiny p-value. -/
def chiZero : List ℕ → List ℕ → ℚ := fun _ _ => 0

/-- A well-formed monitor: one numeric and one categorical feature,
adequate data, default alpha. -/
def goodM : Monitor where
  pdf1 := ⟨[("n", [some 0]), ("c", [some 1])]⟩
  pdf2 := ⟨[("n", [some 1]), ("c", [some 2])]⟩
  categorical_columns := ["c"]
  continuous_columns := ["n"]
  alpha := 1 / 20
  ks_2samp := ksHalf
  chi2_contingency := chiHalf

/-- A monitor whose oracles return a p-value exactly equal to the
corrected threshold, to exercise the boundary case. -/
def boundaryM : Monitor where
  pdf1 := ⟨[("n", [some 0]), ("c", [some 1])]⟩
  pdf2 := ⟨[("n", [some 1]), ("c", [some 2])]⟩
  categorical_columns := ["c"]
  continuous_columns := ["n"]
  alpha := 1 / 20
  ks_2samp := fun _ _ => 1 / 20
  chi2_contingency := fun _ _ => 1 / 20

/-- A monitor whose numeric feature list names a column "x" that is
absent from both windows; the first numeric feature "a" is present,
drifts, and is evaluated before "x" is reached. -/
def missingColM : Monitor where
  pdf1 := ⟨[("a", [some 0]), ("b", [some 0])]⟩
  pdf2 := ⟨[("a", [some 1]), ("b", [some 1])]⟩
  categorical_columns := []
  continuous_columns := ["a", "x"]
  alpha := 1 / 20
  ks_2samp := ksZero
  chi2_contingency := chiZero

/-- A monitor whose comparison window has zero rows, so the very first
Kolmogorov-Smirnov call raises `ValueError`. -/
def emptyDataM : Monitor where
  pdf1 := ⟨[("a", [some 0]), ("b", [some 0])]⟩
  pdf2 := ⟨[("a", []), ("b", [])]⟩
  categorical_columns := []
  continuous_columns := ["a", "b"]
  alpha := 1 / 20
  ks_2samp := ksZero
  chi2_contingency := chiZero

/-- A monitor with an empty numeric feature list. -/
def emptyNumM : Monitor where
  pdf1 := ⟨[("c", [some 1])]⟩
  pdf2 := ⟨[("c", [some 1])]⟩
  categorical_columns := ["c"]
  continuous_columns := []
  alpha := 1 / 20
  ks_2samp := ksHalf
  chi2_contingency := chiHalf

/-- A monitor with an empty categorical feature list and a healthy
numeric family. -/
def emptyCatM : Monitor where
  pdf1 := ⟨[("n", [some 0])]⟩
  pdf2 := ⟨[("n", [some 1])]⟩
  categorical_columns := []
  continuous_columns := ["n"]
  alpha := 1 / 20
  ks_2samp := ksHalf
  chi2_contingency := chiHalf

/-- The monitor `goodM` reconfigured with `alpha = 2`, far outside the
interval `(0, 1]`. -/
def alphaTwoM : Monitor where
  pdf1 := ⟨[("n", [some 0]), ("c", [some 1])]⟩
  pdf2 := ⟨[("n", [some 1]), ("c", [some 2])]⟩
  categorical_columns := ["c"]
  continuous_columns := ["n"]
  alpha := 2
  ks_2samp := ksHalf
  chi2_contingency := chiHalf

/-- Evaluation of the run of `goodM`: both tests execute, neither drifts. -/
theorem goodM_run :
    goodM.run = ([⟨"n", .numeric, 1 / 2, 1 / 20, false⟩,
                  ⟨"c", .categorical, 1 / 2, 1 / 20, false⟩], none) := by
  simp +decide [Monitor.run, Monitor.handle_numeric, Monitor.handle_categorical, runFamily,
    evalNumeric, evalCategorical, goodM, PDF.get, List.lookup, ksHalf, chiHalf,
    contingencyTable, tableRow, joinKeys, value_counts, dropna,
    List.insertionSort, List.orderedInsert]
  norm_num

/-- Evaluation of the run of `boundaryM`: both p-values sit exactly on
the corrected threshold; the numeric test drifts, the categorical one
does not. -/
theorem boundaryM_run :
    boundaryM.run = ([⟨"n", .numeric, 1 / 20, 1 / 20, true⟩,
                      ⟨"c", .categorical, 1 / 20, 1 / 20, false⟩], none) := by
  simp +decide [Monitor.run, Monitor.handle_numeric, Monitor.handle_categorical, runFamily,
    evalNumeric, evalCategorical, boundaryM, PDF.get, List.lookup,
    contingencyTable, tableRow, joinKeys, value_counts, dropna,
    List.insertionSort, List.orderedInsert]

/-- Evaluation of the run of `missingColM`: the test for the feature "a"
executes (and emits a drift notification) before the lookup of the
absent column "x" raises a `KeyError`. -/
theorem missingColM_run :
    missingColM.run = ([⟨"a", .numeric, 0, 1 / 40, true⟩], some (.keyError "x")) := by
  simp +decide [Monitor.run, Monitor.handle_numeric, Monitor.handle_categorical, runFamily,
    evalNumeric, evalCategorical, missingColM, PDF.get, List.lookup, ksZero, chiZero]
  norm_num

/-- Evaluation of the run of `emptyDataM`: the first Kolmogorov-Smirnov
call raises `ValueError`, nothing is recorded and the remaining feature
is never evaluated. -/
theorem emptyDataM_run : emptyDataM.run = ([], some .valueError) := rfl

/-- Evaluation of the run of `emptyNumM`: division of alpha by the zero
length of the numeric family raises before any feature is touched. -/
theorem emptyNumM_run : emptyNumM.run = ([], some .zeroDivisionError) := rfl

/-- Evaluation of the run of `emptyCatM`: the numeric phase completes,
then division of alpha by the zero length of the categorical family
raises. -/
theorem emptyCatM_run_snd : (emptyCatM.run).2 = some .zeroDivisionError := rfl

/-- Evaluation of the run of `alphaTwoM`: the out-of-range alpha is
accepted silently and the run completes without any error. -/
theorem alphaTwoM_run_snd : (alphaTwoM.run).2 = none := rfl

/-- Every result in a family trace comes from a successful evaluation of
some listed feature. -/
theorem runFamily_mem {ev : String → Except RunError TestResult} {r : TestResult} :
    ∀ {fs : List String}, r ∈ (runFamily ev fs).1 → ∃ f, f ∈ fs ∧ ev f = .ok r := by
  intro fs
  induction fs with
  | nil => intro h; simp [runFamily] at h
  | cons f t ih =>
    intro h
    cases hef : ev f with
    | error e => simp [runFamily, hef] at h
    | ok r0 =>
      simp only [runFamily, hef] at h
      rcases List.mem_cons.mp h with h | h
      · exact ⟨f, List.mem_cons_self f t, by rw [hef, h]⟩
      · rcases ih h with ⟨g, hg, hok⟩
        exact ⟨g, List.mem_cons_of_mem f hg, hok⟩

/-- If a family trace carries no error, every listed feature evaluated
successfully. -/
theorem runFamily_none_all_ok {ev : String → Except RunError TestResult} :
    ∀ {fs : List String}, (runFamily ev fs).2 = none →
      ∀ f ∈ fs, ∃ r, ev f = .ok r := by
  intro fs
  induction fs with
  | nil => intro _ f hf; cases hf
  | cons g t ih =>
    intro h f hf
    cases hg : ev g with
    | error e => simp [runFamily, hg] at h
    | ok r =>
      simp only [runFamily, hg] at h
      rcases List.mem_cons.mp hf with rfl | hft
      · exact ⟨r, hg⟩
      · exact ih h f hft

/-- If every listed feature evaluates successfully, the family loop
finishes without an error. -/
theorem runFamily_none_of_all_ok {ev : String → Except RunError TestResult} :
    ∀ {fs : List String}, (∀ f ∈ fs, ∃ r, ev f = .ok r) →
      (runFamily ev fs).2 = none := by
  intro fs
  induction fs with
  | nil => intro; simp [runFamily]
  | cons g t ih =>
    intro h
    rcases h g (List.mem_cons_self g t) with ⟨r, hg⟩
    simp only [runFamily, hg]
    exact ih (fun f hf => h f (List.mem_cons_of_mem g hf))

/-- If some listed feature evaluates to an exception, the family loop
ends with an uncaught exception. -/
theorem runFamily_isSome_of_error {ev : String → Except RunError TestResult}
    {f : String} {e : RunError} :
    ∀ {fs : List String}, f ∈ fs → ev f = .error e →
      ((runFamily ev fs).2).isSome = true := by
  intro fs
  induction fs with
  | nil => intro hf; cases hf
  | cons g t ih =>
    intro hf he
    cases hg : ev g with
    | error e0 => simp [runFamily, hg]
    | ok r =>
      simp only [runFamily, hg]
      rcases List.mem_cons.mp hf with rfl | hft
      · rw [hg] at he; cases he
      · exact ih hft he

/-- The drift-flagged part of a successful family trace is exactly the
input feature list filtered by the drift verdict, in input order. -/
theorem runFamily_drift_filter {ev : String → Except RunError TestResult}
    {vd : String → Bool}
    (hev : ∀ f r, ev f = .ok r → r.feature = f ∧ r.is_drift = vd f) :
    ∀ fs : List String, (runFamily ev fs).2 = none →
      ((runFamily ev fs).1.filter (fun r => r.is_drift)).map (fun r => r.feature)
        = fs.filter vd := by
  intro fs
  induction fs with
  | nil => intro; simp [runFamily]
  | cons f t ih =>
    intro h2
    cases hef : ev f with
    | error e => simp [runFamily, hef] at h2
    | ok r =>
      rcases hev f r hef with ⟨hfeat, hdrift⟩
      simp only [runFamily, hef] at h2 ⊢
      cases hvd : vd f with
      | true =>
        have hd : r.is_drift = true := by rw [hdrift, hvd]
        simp [List.filter_cons, hd, hvd, hfeat, ih h2]
      | false =>
        have hd : r.is_drift = false := by rw [hdrift, hvd]
        simp [List.filter_cons, hd, hvd, ih h2]

/-- Characterisation of a successful numeric evaluation: the result
records the feature, the numeric family, the supplied corrected alpha,
the oracle p-value, and the non-strict drift comparison. -/
theorem evalNumeric_ok {m : Monitor} {ca : ℚ} {f : String} {r : TestResult}
    (h : evalNumeric m ca f = .ok r) :
    r.feature = f ∧ r.kind = .numeric ∧ r.corrected_alpha = ca ∧
    r.is_drift = decide (r.p_value ≤ r.corrected_alpha) ∧
    ∃ c1 c2, m.pdf1.get f = some c1 ∧ m.pdf2.get f = some c2 ∧
      r.p_value = m.ks_2samp c1 c2 := by
  cases h1 : m.pdf1.get f with
  | none => simp [evalNumeric, h1] at h
  | some c1 =>
    cases h2 : m.pdf2.get f with
    | none => simp [evalNumeric, h1, h2] at h
    | some c2 =>
      simp only [evalNumeric, h1, h2] at h
      by_cases hlen : c1.length = 0 ∨ c2.length = 0
      · rw [if_pos hlen] at h; cases h
      · rw [if_neg hlen] at h
        cases h
        exact ⟨rfl, rfl, rfl, rfl, c1, c2, rfl, rfl, rfl⟩

/-- Characterisation of a successful categorical evaluation: the result
records the feature, the categorical family, the supplied corrected
alpha, the oracle p-value on the contingency table, and the strict
drift comparison. -/
theorem evalCategorical_ok {m : Monitor} {ca : ℚ} {f : String} {r : TestResult}
    (h : evalCategorical m ca f = .ok r) :
    r.feature = f ∧ r.kind = .categorical ∧ r.corrected_alpha = ca ∧
    r.is_drift = decide (r.p_value < r.corrected_alpha) ∧
    ∃ c1 c2, m.pdf1.get f = some c1 ∧ m.pdf2.get f = some c2 ∧
      r.p_value = m.chi2_contingency (contingencyTable c1 c2).1 (contingencyTable c1 c2).2 := by
  cases h1 : m.pdf1.get f with
  | none => simp [evalCategorical, h1] at h
  | some c1 =>
    cases h2 : m.pdf2.get f with
    | none => simp [evalCategorical, h1, h2] at h
    | some c2 =>
      simp only [evalCategorical, h1, h2] at h
      by_cases hs : (contingencyTable c1 c2).1.sum = 0 ∨ (contingencyTable c1 c2).2.sum = 0
      · rw [if_pos hs] at h; cases h
      · rw [if_neg hs] at h
        cases h
        exact ⟨rfl, rfl, rfl, rfl, c1, c2, rfl, rfl, rfl⟩

/-- A run carries no error exactly when neither phase does. -/
theorem run_none_iff {m : Monitor} :
    (m.run).2 = none ↔
      (m.handle_numeric).2 = none ∧ (m.handle_categorical).2 = none := by
  cases h : (m.handle_numeric).2 <;> simp [Monitor.run, h]

/-- When the numeric phase succeeds, the run trace is the concatenation
of the two phase traces. -/
theorem run_fst_of_none {m : Monitor} (h : (m.handle_numeric).2 = none) :
    (m.run).1 = (m.handle_numeric).1 ++ (m.handle_categorical).1 := by
  simp [Monitor.run, h]

/-- Every result of the run trace belongs to one of the two phases. -/
theorem run_mem {m : Monitor} {r : TestResult} (h : r ∈ (m.run).1) :
    r ∈ (m.handle_numeric).1 ∨ r ∈ (m.handle_categorical).1 := by
  cases h2 : (m.handle_numeric).2 with
  | some e => simp only [Monitor.run, h2] at h; exact Or.inl h
  | none =>
    simp only [Monitor.run, h2] at h
    exact List.mem_append.mp h

/-- Every result of the numeric phase has numeric kind, the shared
corrected alpha of that family, and the non-strict drift comparison. -/
theorem handle_numeric_mem {m : Monitor} {r : TestResult}
    (h : r ∈ (m.handle_numeric).1) :
    r.kind = .numeric ∧
    r.corrected_alpha = m.alpha / (m.continuous_columns.length : ℚ) ∧
    r.is_drift = decide (r.p_value ≤ r.corrected_alpha) := by
  unfold Monitor.handle_numeric at h
  by_cases hlen : m.continuous_columns.length = 0
  · rw [if_pos hlen] at h; simp at h
  · rw [if_neg hlen] at h
    rcases runFamily_mem h with ⟨f, _, hok⟩
    rcases evalNumeric_ok hok with ⟨_, hkind, hca, hdrift, _⟩
    exact ⟨hkind, hca, hdrift⟩

/-- Every result of the categorical phase has categorical kind, the
shared corrected alpha of that family, and the strict drift
comparison. -/
theorem handle_categorical_mem {m : Monitor} {r : TestResult}
    (h : r ∈ (m.handle_categorical).1) :
    r.kind = .categorical ∧
    r.corrected_alpha = m.alpha / (m.categorical_columns.length : ℚ) ∧
    r.is_drift = decide (r.p_value < r.corrected_alpha) := by
  unfold Monitor.handle_categorical at h
  by_cases hlen : m.categorical_columns.length = 0
  · rw [if_pos hlen] at h; simp at h
  · rw [if_neg hlen] at h
    rcases runFamily_mem h with ⟨f, _, hok⟩
    rcases evalCategorical_ok hok with ⟨_, hkind, hca, hdrift, _⟩
    exact ⟨hkind, hca, hdrift⟩

/-- If a listed numeric feature evaluates to an exception, the whole run
ends with an uncaught exception. -/
theorem run_isSome_of_numeric_error {m : Monitor} {f : String} {e : RunError}
    (hf : f ∈ m.continuous_columns)
    (he : evalNumeric m (m.alpha / (m.continuous_columns.length : ℚ)) f = .error e) :
    ((m.run).2).isSome = true := by
  cases hn2 : (m.handle_numeric).2 with
  | some e0 => simp [Monitor.run, hn2]
  | none =>
    exfalso
    unfold Monitor.handle_numeric at hn2
    by_cases hlen : m.continuous_columns.length = 0
    · rw [if_pos hlen] at hn2; cases hn2
    · rw [if_neg hlen] at hn2
      rcases runFamily_none_all_ok hn2 f hf with ⟨r, hr⟩
      rw [he] at hr; cases hr

/-- If a listed categorical feature evaluates to an exception, the whole
run ends with an uncaught exception. -/
theorem run_isSome_of_categorical_error {m : Monitor} {f : String} {e : RunError}
    (hf : f ∈ m.categorical_columns)
    (he : evalCategorical m (m.alpha / (m.categorical_columns.length : ℚ)) f = .error e) :
    ((m.run).2).isSome = true := by
  cases hn2 : (m.handle_numeric).2 with
  | some e0 => simp [Monitor.run, hn2]
  | none =>
    simp only [Monitor.run, hn2]
    unfold Monitor.handle_categorical
    by_cases hlen : m.categorical_columns.length = 0
    · rw [if_pos hlen]; rfl
    · rw [if_neg hlen]
      exact runFamily_isSome_of_error hf he

/-- Association-list lookup over a key-indexed map of a function. -/
theorem lookup_map_pair (g : ℚ → ℕ) (v : ℚ) :
    ∀ ks : List ℚ,
      (ks.map (fun k => (k, g k))).lookup v = if v ∈ ks then some (g v) else none := by
  intro ks
  induction ks with
  | nil => simp
  | cons k t ih =>
    by_cases hvk : v = k
    · subst hvk
      simp [List.lookup]
    · simp [List.lookup, beq_eq_false_iff_ne.mpr hvk, ih, hvk]

/-- A cell of the joined, zero-filled count table is the plain count of
that value among the non-null entries of the window. -/
theorem value_counts_cell (vs : Col) (v : ℚ) :
    ((value_counts vs).lookup v).getD 0 = (dropna vs).count v := by
  unfold value_counts
  rw [lookup_map_pair]
  by_cases hv : v ∈ ((dropna vs).dedup).insertionSort (· ≤ ·)
  · simp [hv]
  · have hnot : v ∉ dropna vs := by
      intro hmem
      exact hv (((List.perm_insertionSort _ _).mem_iff).mpr (List.mem_dedup.mpr hmem))
    simp [hv, List.count_eq_zero.mpr hnot]

/-- A table row is the pointwise count of each key among the non-null
entries of its window. -/
theorem tableRow_eq_counts (vs : Col) (keys : List ℚ) :
    tableRow vs keys = keys.map (fun v => (dropna vs).count v) := by
  unfold tableRow
  simp only [value_counts_cell]

/-- Counting inside the non-null entries is counting the corresponding
non-null cell in the raw column. -/
theorem count_dropna (vs : Col) (v : ℚ) :
    (dropna vs).count v = vs.count (some v) := by
  induction vs with
  | nil => rfl
  | cons o t ih =>
    cases o with
    | none =>
      have h1 : dropna (none :: t) = dropna t := rfl
      rw [h1, ih, List.count_cons]
      simp
    | some q =>
      have h1 : dropna (some q :: t) = q :: dropna t := rfl
      rw [h1, List.count_cons, List.count_cons, ih]
      simp

/-- Membership in the non-null entries of a column. -/
theorem mem_dropna {vs : Col} {v : ℚ} : v ∈ dropna vs ↔ some v ∈ vs := by
  unfold dropna
  simp

/-- The joined index contains exactly the values observed (non-null) in
either window. -/
theorem mem_joinKeys {vs1 vs2 : Col} {v : ℚ} :
    v ∈ joinKeys vs1 vs2 ↔ (some v ∈ vs1 ∨ some v ∈ vs2) := by
  unfold joinKeys
  rw [(List.perm_insertionSort _ _).mem_iff, List.mem_dedup, List.mem_append,
    mem_dropna, mem_dropna]

/-- The joined index has no duplicate categories. -/
theorem nodup_joinKeys (vs1 vs2 : Col) : (joinKeys vs1 vs2).Nodup := by
  unfold joinKeys
  exact ((List.perm_insertionSort _ _).nodup_iff).mpr (List.nodup_dedup _)

/-- Sum of a pointwise sum of two maps. -/
theorem sum_map_add (f g : ℚ → ℕ) :
    ∀ keys : List ℚ,
      (keys.map (fun v => f v + g v)).sum = (keys.map f).sum + (keys.map g).sum := by
  intro keys
  induction keys with
  | nil => rfl
  | cons k t ih => simp [ih]; omega

/-- Summing the indicator of one value over a duplicate-free key list. -/
theorem sum_map_indicator (a : ℚ) :
    ∀ keys : List ℚ, keys.Nodup →
      (keys.map (fun v => if a = v then 1 else 0)).sum = if a ∈ keys then 1 else 0 := by
  intro keys
  induction keys with
  | nil => simp
  | cons k t ih =>
    intro hnd
    rcases List.nodup_cons.mp hnd with ⟨hk, hnd2⟩
    rw [List.map_cons, List.sum_cons, ih hnd2]
    by_cases hka : a = k
    · subst hka
      simp [hk]
    · by_cases hat : a ∈ t <;> simp [hka, hat]

/-- Summing, over a duplicate-free key list that covers a multiset, the
per-key counts recovers the size of the multiset. -/
theorem sum_map_count (keys : List ℚ) (hnd : keys.Nodup) :
    ∀ l : List ℚ, (∀ x ∈ l, x ∈ keys) →
      (keys.map (fun v => l.count v)).sum = l.length := by
  intro l
  induction l with
  | nil => intro; simp
  | cons a t ih =>
    intro hsub
    have hsubt : ∀ x ∈ t, x ∈ keys := fun x hx => hsub x (List.mem_cons_of_mem a hx)
    have ha : a ∈ keys := hsub a (List.mem_cons_self a t)
    calc (keys.map fun v => (a :: t).count v).sum
        = (keys.map fun v => t.count v + if a = v then 1 else 0).sum := by
          simp [List.count_cons]
      _ = (keys.map fun v => t.count v).sum
            + (keys.map fun v => if a = v then 1 else 0).sum := by
          rw [sum_map_add]
      _ = t.length + 1 := by rw [ih hsubt, sum_map_indicator a keys hnd, if_pos ha]
      _ = (a :: t).length := by simp

/-- Claim C1: for every run that completes without an exception, the
sequence of drift notifications contains exactly the features whose
verdict is drift, and within each family the order of the events equals
the order of the supplied feature list (the numeric family is reported
first, then the categorical family, each filtered in input order). -/
theorem run_emits_exactly_drift_features (m : Monitor) (h : (m.run).2 = none) :
    (m.driftEvents).map (fun r => r.feature)
      = m.continuous_columns.filter (numericVerdict m)
        ++ m.categorical_columns.filter (categoricalVerdict m) := by
  rcases run_none_iff.mp h with ⟨hn, hc⟩
  unfold Monitor.driftEvents
  rw [run_fst_of_none hn, List.filter_append, List.map_append]
  congr 1
  · unfold Monitor.handle_numeric at hn ⊢
    by_cases hlen : m.continuous_columns.length = 0
    · rw [if_pos hlen] at hn; simp at hn
    · rw [if_neg hlen] at hn ⊢
      refine runFamily_drift_filter ?_ _ hn
      intro f r hok
      rcases evalNumeric_ok hok with ⟨hfeat, _, hca, hdrift, c1, c2, h1, h2, hp⟩
      refine ⟨hfeat, ?_⟩
      rw [hdrift, hp, hca]
      simp [numericVerdict, h1, h2]
  · unfold Monitor.handle_categorical at hc ⊢
    by_cases hlen : m.categorical_columns.length = 0
    · rw [if_pos hlen] at hc; simp at hc
    · rw [if_neg hlen] at hc ⊢
      refine runFamily_drift_filter ?_ _ hc
      intro f r hok
      rcases evalCategorical_ok hok with ⟨hfeat, _, hca, hdrift, c1, c2, h1, h2, hp⟩
      refine ⟨hfeat, ?_⟩
      rw [hdrift, hp, hca]
      simp [categoricalVerdict, h1, h2]

/-- Witness for claim C1 at the concrete monitor `goodM`. -/
theorem run_emits_exactly_drift_features_witness :
    (goodM.driftEvents).map (fun r => r.feature)
      = goodM.continuous_columns.filter (numericVerdict goodM)
        ++ goodM.categorical_columns.filter (categoricalVerdict goodM) :=
  run_emits_exactly_drift_features goodM (by rw [goodM_run])

/-- Claim C2 (amended): when the two windows carry different column
lists, construction already fails with the assertion "Columns do not
match", before any test can execute; but a feature named in the
partition and absent from the windows is not detected up front: the run
raises only when that feature is reached, after the tests of earlier
features have executed. -/
theorem schema_mismatch_semantics :
    (∀ (p1 p2 : PDF) (cat_cols num_cols : List String) (a : ℚ)
       (ks : Col → Col → ℚ) (chi : List ℕ → List ℕ → ℚ),
       p1.columns ≠ p2.columns →
         mkMonitor p1 p2 cat_cols num_cols a ks chi = .error .assertionError) ∧
    (∀ (m : Monitor) (f : String), f ∈ m.continuous_columns →
       m.pdf1.get f = none → ((m.run).2).isSome = true) ∧
    (∀ (m : Monitor) (f : String), f ∈ m.categorical_columns →
       m.pdf1.get f = none → ((m.run).2).isSome = true) := by
  refine ⟨fun p1 p2 cc nc a ks chi hne => ?_,
          fun m f hf hg => ?_, fun m f hf hg => ?_⟩
  · unfold mkMonitor
    rw [if_neg hne]
  · exact @run_isSome_of_numeric_error m f (.keyError f) hf
      (by simp [evalNumeric, hg])
  · exact @run_isSome_of_categorical_error m f (.keyError f) hf
      (by simp [evalCategorical, hg])

/-- Counterexample to claim C2 as stated: with the feature list
["a", "x"] over windows that only carry columns "a" and "b", the run
does not fail before any statistical test executes.  The test for "a"
runs first, emits a drift notification (a partial result), and only
then does the lookup of "x" raise - and it raises a `KeyError`, not the
schema assertion. -/
theorem schema_mismatch_cex :
    "x" ∈ missingColM.continuous_columns ∧
    missingColM.pdf1.get "x" = none ∧
    (missingColM.run).1 ≠ [] ∧
    missingColM.driftEvents ≠ [] ∧
    (missingColM.run).2 = some (.keyError "x") := by
  refine ⟨by decide, rfl, ?_, ?_, ?_⟩
  · rw [missingColM_run]; simp
  · unfold Monitor.driftEvents
    rw [missingColM_run]
    simp
  · rw [missingColM_run]

/-- Witness for claim C2 at concrete inputs. -/
theorem schema_mismatch_semantics_witness :
    mkMonitor ⟨[("a", [])]⟩ ⟨[("b", [])]⟩ [] [] (1 / 20) ksZero chiZero
        = .error .assertionError ∧
    ((missingColM.run).2).isSome = true :=
  ⟨schema_mismatch_semantics.1 _ _ _ _ _ _ _ (by decide),
   schema_mismatch_semantics.2.1 missingColM "x" (by decide) rfl⟩

/-- Claim C3 (amended): a feature with insufficient data (numeric: an
empty window array; categorical: a window with zero tabulated
observations) makes the scipy routine raise `ValueError`, and the
orchestrator does not catch it: the run aborts with the uncaught
exception; there is no Skipped outcome and the remaining features are
not evaluated. -/
theorem insufficient_data_aborts :
    (∀ (m : Monitor) (f : String) (c1 c2 : Col), f ∈ m.continuous_columns →
       m.pdf1.get f = some c1 → m.pdf2.get f = some c2 →
       (c1.length = 0 ∨ c2.length = 0) → ((m.run).2).isSome = true) ∧
    (∀ (m : Monitor) (f : String) (c1 c2 : Col), f ∈ m.categorical_columns →
       m.pdf1.get f = some c1 → m.pdf2.get f = some c2 →
       ((contingencyTable c1 c2).1.sum = 0 ∨ (contingencyTable c1 c2).2.sum = 0) →
       ((m.run).2).isSome = true) := by
  refine ⟨fun m f c1 c2 hf h1 h2 hlen => ?_, fun m f c1 c2 hf h1 h2 hs => ?_⟩
  · exact @run_isSome_of_numeric_error m f .valueError hf
      (by simp only [evalNumeric, h1, h2]; rw [if_pos hlen])
  · exact @run_isSome_of_categorical_error m f .valueError hf
      (by simp only [evalCategorical, h1, h2]; rw [if_pos hs])

/-- Counterexample to claim C3 as stated: with an empty comparison
window, the first Kolmogorov-Smirnov call raises; nothing is caught,
nothing is recorded as Skipped, and the second feature "b" is never
evaluated (the trace is empty and the error escapes the run). -/
theorem insufficient_data_cex :
    emptyDataM.continuous_columns = ["a", "b"] ∧
    emptyDataM.run = ([], some .valueError) :=
  ⟨rfl, emptyDataM_run⟩

/-- Witness for claim C3 at the concrete monitor `emptyDataM`. -/
theorem insufficient_data_aborts_witness :
    ((emptyDataM.run).2).isSome = true :=
  insufficient_data_aborts.1 emptyDataM "a" [some 0] []
    (by decide) rfl rfl (Or.inr rfl)

/-- Claim C4 (amended): null values are dropped by the per-window
frequency counts (pandas `value_counts()` defaults to `dropna=True`),
so the contingency table tabulates exactly the non-null observations of
each window: each row sums to the number of non-null entries, not to
the window length. -/
theorem contingency_counts_only_nonnull (vs1 vs2 : Col) :
    ((contingencyTable vs1 vs2).1).sum = (dropna vs1).length ∧
    ((contingencyTable vs1 vs2).2).sum = (dropna vs2).length := by
  constructor
  · simp only [contingencyTable]
    rw [tableRow_eq_counts]
    exact sum_map_count (joinKeys vs1 vs2) (nodup_joinKeys vs1 vs2) (dropna vs1)
      (fun x hx => mem_joinKeys.mpr (Or.inl (mem_dropna.mp hx)))
  · simp only [contingencyTable]
    rw [tableRow_eq_counts]
    exact sum_map_count (joinKeys vs1 vs2) (nodup_joinKeys vs1 vs2) (dropna vs2)
      (fun x hx => mem_joinKeys.mpr (Or.inr (mem_dropna.mp hx)))

/-- Counterexample to claim C4 as stated: a window with three nulls and
one observation of category 1.  Were nulls counted as their own
category, the table would have a null column and its first row would
sum to the window length 4; instead the joined index is just [1] and
the first row sums to 1 - the three nulls are silently dropped. -/
theorem null_category_cex :
    joinKeys [some 1, none, none, none] [some 1] = [1] ∧
    (contingencyTable [some 1, none, none, none] [some 1]).1 = [1] ∧
    ((contingencyTable [some 1, none, none, none] [some 1]).1).sum = 1 ∧
    ([some 1, none, none, none] : Col).length = 4 ∧
    ([some 1, none, none, none] : Col).count none = 3 := by
  refine ⟨rfl, rfl, rfl, rfl, rfl⟩

/-- A result cannot be of both kinds. -/
theorem kind_clash {r : TestResult} {p : Prop} (hk : r.kind = .numeric)
    (hk2 : r.kind = .categorical) : p := by
  rw [hk] at hk2
  cases hk2

/-- Claim C5: every result produced by a run was compared against the
Bonferroni-corrected threshold of its own family: family-wide alpha
divided by the number of features of that family, the same threshold
for every feature of the family, with the numeric and categorical
families corrected independently of each other. -/
theorem run_family_corrected_alpha (m : Monitor) (r : TestResult)
    (h : r ∈ (m.run).1) :
    (r.kind = .numeric →
       r.corrected_alpha = m.alpha / (m.continuous_columns.length : ℚ)) ∧
    (r.kind = .categorical →
       r.corrected_alpha = m.alpha / (m.categorical_columns.length : ℚ)) := by
  rcases run_mem h with h | h
  · rcases handle_numeric_mem h with ⟨hk, hca, _⟩
    exact ⟨fun _ => hca, fun hk2 => kind_clash hk hk2⟩
  · rcases handle_categorical_mem h with ⟨hk, hca, _⟩
    exact ⟨fun hk2 => kind_clash hk2 hk, fun _ => hca⟩

/-- Witness for claim C5 at the concrete monitor `goodM`. -/
theorem run_family_corrected_alpha_witness :
    (⟨"n", .numeric, 1 / 2, 1 / 20, false⟩ : TestResult).corrected_alpha
      = goodM.alpha / (goodM.continuous_columns.length : ℚ) :=
  (run_family_corrected_alpha goodM ⟨"n", .numeric, 1 / 2, 1 / 20, false⟩
    (by rw [goodM_run]; simp)).1 rfl

/-- Claim C6: the numeric drift verdict is the non-strict comparison
`p_value <= corrected_alpha` while the categorical verdict is the
strict comparison `p_value < corrected_alpha`; at a p-value exactly
equal to the corrected threshold the numeric test reports drift and the
categorical test does not. -/
theorem run_drift_inequality (m : Monitor) (r : TestResult)
    (h : r ∈ (m.run).1) :
    (r.kind = .numeric →
       r.is_drift = decide (r.p_value ≤ r.corrected_alpha) ∧
       (r.p_value = r.corrected_alpha → r.is_drift = true)) ∧
    (r.kind = .categorical →
       r.is_drift = decide (r.p_value < r.corrected_alpha) ∧
       (r.p_value = r.corrected_alpha → r.is_drift = false)) := by
  rcases run_mem h with h | h
  · rcases handle_numeric_mem h with ⟨hk, _, hd⟩
    refine ⟨fun _ => ⟨hd, fun hpe => ?_⟩, fun hk2 => kind_clash hk hk2⟩
    rw [hd, hpe]
    simp
  · rcases handle_categorical_mem h with ⟨hk, _, hd⟩
    refine ⟨fun hk2 => kind_clash hk2 hk, fun _ => ⟨hd, fun hpe => ?_⟩⟩
    rw [hd, hpe]
    simp

/-- Witness for claim C6 at the concrete monitor `boundaryM`, whose two
p-values sit exactly on the corrected threshold. -/
theorem run_drift_inequality_witness :
    (⟨"n", .numeric, 1 / 20, 1 / 20, true⟩ : TestResult).is_drift = true ∧
    (⟨"c", .categorical, 1 / 20, 1 / 20, false⟩ : TestResult).is_drift = false :=
  ⟨((run_drift_inequality boundaryM ⟨"n", .numeric, 1 / 20, 1 / 20, true⟩
      (by rw [boundaryM_run]; simp)).1 rfl).2 rfl,
   ((run_drift_inequality boundaryM ⟨"c", .categorical, 1 / 20, 1 / 20, false⟩
      (by rw [boundaryM_run]; simp)).2 rfl).2 rfl⟩

/-- Claim C7 (amended): each percent-change cell compares the two
per-window statistics through `100 * |a - b| / |a + eps|` - the code
places the guard inside the absolute value, so this agrees with the
claimed `100 * |a - b| / (|a| + eps)` whenever the baseline statistic
is nonnegative, but not for negative statistics; statistics are taken
independently per window. -/
theorem percent_change_formula (describe : Col → List ℚ) (m : Monitor) :
    (∀ a b : ℚ, percent_change_cell a b = 100 * |a - b| / |a + epsGuard|) ∧
    (∀ a b : ℚ, 0 ≤ a →
       percent_change_cell a b = 100 * |a - b| / (|a| + epsGuard)) ∧
    (∀ pr ∈ generate_percent_change describe m,
       pr.2 = List.zipWith percent_change_cell
         (describe ((m.pdf1.get pr.1).getD []))
         (describe ((m.pdf2.get pr.1).getD []))) := by
  have heps : (0 : ℚ) < epsGuard := by norm_num [epsGuard]
  refine ⟨fun a b => ?_, fun a b ha => ?_, fun pr hpr => ?_⟩
  · unfold percent_change_cell
    rw [abs_div, mul_div_assoc]
  · unfold percent_change_cell
    rw [abs_div, abs_of_nonneg (by linarith : (0 : ℚ) ≤ a + epsGuard),
      abs_of_nonneg ha, mul_div_assoc]
  · rcases List.mem_map.mp hpr with ⟨f, hf, rfl⟩
    rfl

/-- Counterexample to claim C7 as stated: at the baseline statistic -1
the code divides by `|-1 + eps|` while the claim divides by
`|-1| + eps`; over exact arithmetic the two disagree. -/
theorem percent_change_cex :
    percent_change_cell (-1) 0 ≠ 100 * |(-1 : ℚ) - 0| / (|(-1 : ℚ)| + epsGuard) := by
  have he1 : (-1 : ℚ) + epsGuard < 0 := by norm_num [epsGuard]
  have ha : |(-1 : ℚ) - 0| = 1 := by
    rw [abs_of_nonpos (by norm_num)]
    norm_num
  have hb : |(-1 : ℚ)| = 1 := by
    rw [abs_of_nonpos (by norm_num)]
    norm_num
  unfold percent_change_cell
  intro h
  rw [abs_div, ha, hb, abs_of_neg he1] at h
  norm_num [epsGuard] at h

/-- Witness for claim C7 at a concrete nonnegative baseline. -/
theorem percent_change_formula_witness :
    percent_change_cell 2 3 = 100 * |(2 : ℚ) - 3| / (|(2 : ℚ)| + epsGuard) :=
  (percent_change_formula (fun _ => []) goodM).2.1 2 3 (by norm_num)

/-- Claim C8: the contingency table is a 2-by-K matrix of category
counts whose rows are the two windows and whose columns are the union
of the categories observed in either window, a category absent from one
window contributing a zero count in that row. -/
theorem contingency_table_spec (vs1 vs2 : Col) :
    ((contingencyTable vs1 vs2).1.length = (joinKeys vs1 vs2).length ∧
     (contingencyTable vs1 vs2).2.length = (joinKeys vs1 vs2).length) ∧
    (∀ v : ℚ, v ∈ joinKeys vs1 vs2 ↔ (some v ∈ vs1 ∨ some v ∈ vs2)) ∧
    ((contingencyTable vs1 vs2).1
        = (joinKeys vs1 vs2).map (fun v => vs1.count (some v)) ∧
     (contingencyTable vs1 vs2).2
        = (joinKeys vs1 vs2).map (fun v => vs2.count (some v))) ∧
    (∀ v : ℚ, some v ∉ vs1 → vs1.count (some v) = 0) := by
  refine ⟨⟨?_, ?_⟩, fun v => mem_joinKeys, ⟨?_, ?_⟩,
    fun v hv => List.count_eq_zero.mpr hv⟩
  · simp [contingencyTable, tableRow]
  · simp [contingencyTable, tableRow]
  · simp only [contingencyTable]
    rw [tableRow_eq_counts]
    simp only [count_dropna]
  · simp only [contingencyTable]
    rw [tableRow_eq_counts]
    simp only [count_dropna]

/-- Witness for claim C8 at concrete windows. -/
theorem contingency_table_spec_witness :
    ([some 1, none] : Col).count (some 5) = 0 ∧
    ((5 : ℚ) ∈ joinKeys [some 1, none] [some 2] ↔
      (some 5 ∈ ([some 1, none] : Col) ∨ some 5 ∈ ([some 2] : Col))) :=
  ⟨(contingency_table_spec [some 1, none] [some 2]).2.2.2 5 (by decide),
   (contingency_table_spec [some 1, none] [some 2]).2.1 5⟩

/-- Claim C9 (amended): the code performs no configuration validation
at all.  For any alpha whatsoever - including values outside (0, 1] -
a run over nonempty families with adequate data completes without any
error; no InvalidConfiguration condition exists (and a zero test count
raises a ZeroDivisionError instead). -/
theorem no_configuration_validation (m : Monitor)
    (hnum : m.continuous_columns ≠ [])
    (hcat : m.categorical_columns ≠ [])
    (h1 : ∀ f ∈ m.continuous_columns, numFeatureOk m f = true)
    (h2 : ∀ f ∈ m.categorical_columns, catFeatureOk m f = true) :
    (m.run).2 = none := by
  have hlen1 : m.continuous_columns.length ≠ 0 :=
    fun h => hnum (List.length_eq_zero.mp h)
  have hlen2 : m.categorical_columns.length ≠ 0 :=
    fun h => hcat (List.length_eq_zero.mp h)
  have hn : (m.handle_numeric).2 = none := by
    unfold Monitor.handle_numeric
    rw [if_neg hlen1]
    apply runFamily_none_of_all_ok
    intro f hf
    have hok := h1 f hf
    cases hg1 : m.pdf1.get f with
    | none => simp [numFeatureOk, hg1] at hok
    | some c1 =>
      cases hg2 : m.pdf2.get f with
      | none => simp [numFeatureOk, hg1, hg2] at hok
      | some c2 =>
        simp only [numFeatureOk, hg1, hg2, Bool.and_eq_true, bne_iff_ne] at hok
        refine ⟨⟨f, .numeric, m.ks_2samp c1 c2,
          m.alpha / (m.continuous_columns.length : ℚ),
          decide (m.ks_2samp c1 c2 ≤ m.alpha / (m.continuous_columns.length : ℚ))⟩, ?_⟩
        simp only [evalNumeric, hg1, hg2]
        rw [if_neg (not_or.mpr hok)]
  have hc : (m.handle_categorical).2 = none := by
    unfold Monitor.handle_categorical
    rw [if_neg hlen2]
    apply runFamily_none_of_all_ok
    intro f hf
    have hok := h2 f hf
    cases hg1 : m.pdf1.get f with
    | none => simp [catFeatureOk, hg1] at hok
    | some c1 =>
      cases hg2 : m.pdf2.get f with
      | none => simp [catFeatureOk, hg1, hg2] at hok
      | some c2 =>
        simp only [catFeatureOk, hg1, hg2, Bool.and_eq_true, bne_iff_ne] at hok
        refine ⟨⟨f, .categorical,
          m.chi2_contingency (contingencyTable c1 c2).1 (contingencyTable c1 c2).2,
          m.alpha / (m.categorical_columns.length : ℚ),
          decide (m.chi2_contingency (contingencyTable c1 c2).1 (contingencyTable c1 c2).2
            < m.alpha / (m.categorical_columns.length : ℚ))⟩, ?_⟩
        simp only [evalCategorical, hg1, hg2]
        rw [if_neg (not_or.mpr hok)]
  exact run_none_iff.mpr ⟨hn, hc⟩

/-- Counterexample to claim C9 as stated: with alpha = 2, far outside
the interval (0, 1], the run completes with no error of any kind - no
InvalidConfiguration condition is surfaced. -/
theorem invalid_configuration_cex :
    alphaTwoM.alpha = 2 ∧ ¬(alphaTwoM.alpha ≤ 1) ∧ (alphaTwoM.run).2 = none :=
  ⟨rfl, by norm_num [alphaTwoM], alphaTwoM_run_snd⟩

/-- Witness for claim C9 at the concrete monitor `alphaTwoM`. -/
theorem no_configuration_validation_witness : (alphaTwoM.run).2 = none :=
  no_configuration_validation alphaTwoM (by decide) (by decide)
    (by decide) (by decide)

/-- Claim C10: an empty numeric feature list makes the run raise a
ZeroDivisionError while computing the corrected threshold, before any
feature at all is evaluated; an empty categorical feature list makes
the run raise the same error once the numeric phase has completed,
before any categorical feature is evaluated.  No guard for an empty
family exists anywhere on the run path. -/
theorem empty_family_zero_division (m : Monitor) :
    (m.continuous_columns = [] → m.run = ([], some .zeroDivisionError)) ∧
    (m.categorical_columns = [] → (m.handle_numeric).2 = none →
       (m.run).2 = some .zeroDivisionError ∧
       ∀ r ∈ (m.run).1, r.kind = .numeric) := by
  constructor
  · intro h
    have hn : m.handle_numeric = ([], some .zeroDivisionError) := by
      unfold Monitor.handle_numeric
      rw [if_pos (by rw [h]; rfl)]
    simp [Monitor.run, hn]
  · intro h hn2
    have hc : m.handle_categorical = ([], some .zeroDivisionError) := by
      unfold Monitor.handle_categorical
      rw [if_pos (by rw [h]; rfl)]
    refine ⟨by simp [Monitor.run, hn2, hc], fun r hr => ?_⟩
    rw [run_fst_of_none hn2, hc] at hr
    simp at hr
    exact (handle_numeric_mem hr).1

/-- Witness for claim C10 at the concrete monitors `emptyNumM` and
`emptyCatM`. -/
theorem empty_family_zero_division_witness :
    emptyNumM.run = ([], some .zeroDivisionError) ∧
    (emptyCatM.run).2 = some .zeroDivisionError :=
  ⟨(empty_family_zero_division emptyNumM).1 rfl,
   ((empty_family_zero_division emptyCatM).2 rfl rfl).1⟩

end Monitoring
